import Mathlib

set_option maxHeartbeats 1000000
set_option maxRecDepth 16384

/-!
Verification development for the OmniScript Discovery Framework CLI client
(scripts/python/omniscript_discovery.py).

The development shallowly embeds the parts of the script that the claims
talk about:

* a JSON value model (`Json`), a serializer faithful to Python's
  `json.dumps(..., ensure_ascii=False)` in both pretty (`indent=2`) and
  compact form, and a JSON reader modelling `json.loads`, used for the
  serialize-then-parse round-trip property.  JSON numbers are modelled as
  integers (the script never constructs numbers itself; they are passed
  through opaquely).
* the `SalesforceClient` operations `connect`, `get_omniscript_structure`
  and `list_omniscript_processes`, with network effects modelled as
  explicit response functions passed in, and the list of issued requests
  returned alongside the result.
* `load_credentials`, the active-only filter of the `list` command, the
  table truncation logic of `display_processes_table`, and the
  sequential attempt loops of the `debug` command.
-/

/-- JSON values as produced by `response.json()` and consumed by
`json.dumps`.  Object member order is kept (Python dicts preserve
insertion order and `json.dumps` serializes in that order). -/
inductive Json where
  | null : Json
  | bool (b : Bool) : Json
  | num (n : Int) : Json
  | str (s : List Char) : Json
  | arr (elems : List Json) : Json
  | obj (members : List (List Char × Json)) : Json

/-- JSON whitespace characters (space, linefeed, tab, carriage return). -/
def isWsChar (c : Char) : Bool :=
  c.toNat = 32 || c.toNat = 10 || c.toNat = 9 || c.toNat = 13

/-- ASCII decimal digit test. -/
def isDigitChar (c : Char) : Bool :=
  48 ≤ c.toNat && c.toNat ≤ 57

/-- A run of `n` spaces, as produced by `json.dumps` indentation. -/
def spaces (n : Nat) : List Char := List.replicate n ' '

/-- Lower-case hexadecimal digit for a value below 16. -/
def hexDigitChar (n : Nat) : Char := Char.ofNat (if n < 10 then 48 + n else 87 + n)

/-- The `\u00xx` escape of a control character code. -/
def escU (t : Nat) : List Char :=
  ['\\', 'u', '0', '0', hexDigitChar (t / 16), hexDigitChar (t % 16)]

/-- Escaping of one character inside a JSON string, as done by Python's
`json.dumps` with `ensure_ascii=False`: quote, backslash and the named
control characters get two-character escapes, other control characters
get a `\u00xx` escape, and everything else is passed through. -/
def escChar (c : Char) : List Char :=
  if c = '"' then ['\\', '"']
  else if c = '\\' then ['\\', '\\']
  else if c.toNat = 8 then ['\\', 'b']
  else if c.toNat = 12 then ['\\', 'f']
  else if c.toNat = 10 then ['\\', 'n']
  else if c.toNat = 13 then ['\\', 'r']
  else if c.toNat = 9 then ['\\', 't']
  else if c.toNat < 32 then escU c.toNat
  else [c]

/-- Escape a whole string body. -/
def escapeChars : List Char → List Char
  | [] => []
  | c :: cs => escChar c ++ escapeChars cs

/-- Decimal digits of a natural number, most significant first. -/
def natToChars (n : Nat) : List Char :=
  if n < 10 then [Char.ofNat (48 + n)]
  else natToChars (n / 10) ++ [Char.ofNat (48 + n % 10)]
decreasing_by exact Nat.div_lt_self (by omega) (by omega)

/-- Decimal rendering of an integer, as `json.dumps` prints `int`s. -/
def intToChars (n : Int) : List Char :=
  if n < 0 then '-' :: natToChars n.natAbs else natToChars n.toNat

/-- Indent level of children: unchanged in compact mode, `k + n` with
`indent=n`. -/
def childK (ind : Option Nat) (k : Nat) : Nat :=
  match ind with
  | none => k
  | some n => k + n

/-- Whitespace emitted after an opening bracket and before a closing
bracket: nothing in compact mode, newline plus indentation with `indent`. -/
def wsBreak (ind : Option Nat) (k : Nat) : List Char :=
  match ind with
  | none => []
  | some _ => '\n' :: spaces k

/-- What follows the `,` item separator: one space in compact mode
(Python's default separators are `", "` and `": "`), newline plus
indentation in pretty mode (separators `","` and `": "`). -/
def wsSepTail (ind : Option Nat) (k : Nat) : List Char :=
  match ind with
  | none => [' ']
  | some _ => '\n' :: spaces k

/-- Full item separator. -/
def wsSep (ind : Option Nat) (k : Nat) : List Char := ',' :: wsSepTail ind k

/-- The keyword texts of the three JSON literals. -/
def litNull : List Char := ['n', 'u', 'l', 'l']

def litTrue : List Char := ['t', 'r', 'u', 'e']

def litFalse : List Char := ['f', 'a', 'l', 's', 'e']

mutual

/-- Serialization of one JSON value at indent level `k`;
`ind = none` is compact `json.dumps(v)`, `ind = some n` is
`json.dumps(v, indent=n)` (always with `ensure_ascii=False`). -/
def dumpsVal (ind : Option Nat) (k : Nat) : Json → List Char
  | .null => litNull
  | .bool true => litTrue
  | .bool false => litFalse
  | .num n => intToChars n
  | .str s => '"' :: (escapeChars s ++ ['"'])
  | .arr [] => ['[', ']']
  | .arr (x :: xs) =>
      '[' :: (wsBreak ind (childK ind k) ++ dumpsList ind (childK ind k) (x :: xs)
        ++ wsBreak ind k ++ [']'])
  | .obj [] => ['{', '}']
  | .obj (m :: ms) =>
      '{' :: (wsBreak ind (childK ind k) ++ dumpsMembers ind (childK ind k) (m :: ms)
        ++ wsBreak ind k ++ ['}'])

/-- Serialization of the items of a nonempty array, separator included. -/
def dumpsList (ind : Option Nat) (k : Nat) : List Json → List Char
  | [] => []
  | [x] => dumpsVal ind k x
  | x :: y :: rest => dumpsVal ind k x ++ wsSep ind k ++ dumpsList ind k (y :: rest)

/-- Serialization of the members of a nonempty object. -/
def dumpsMembers (ind : Option Nat) (k : Nat) : List (List Char × Json) → List Char
  | [] => []
  | [(key, v)] => '"' :: (escapeChars key ++ ['"', ':', ' '] ++ dumpsVal ind k v)
  | (key, v) :: m :: ms =>
      ('"' :: (escapeChars key ++ ['"', ':', ' '] ++ dumpsVal ind k v))
        ++ wsSep ind k ++ dumpsMembers ind k (m :: ms)

end

/-- Serialization of one object member. -/
def dumpsMember (ind : Option Nat) (k : Nat) (kv : List Char × Json) : List Char :=
  '"' :: (escapeChars kv.1 ++ ['"', ':', ' '] ++ dumpsVal ind k kv.2)

mutual

/-- Number of JSON nodes of a value (used as parser fuel bound). -/
def Json.nodes : Json → Nat
  | .null => 1
  | .bool _ => 1
  | .num _ => 1
  | .str _ => 1
  | .arr xs => 1 + nodesList xs
  | .obj ms => 1 + nodesObj ms

/-- Total node count of a list of values. -/
def nodesList : List Json → Nat
  | [] => 0
  | x :: xs => Json.nodes x + nodesList xs

/-- Total node count of the values of an object member list. -/
def nodesObj : List (List Char × Json) → Nat
  | [] => 0
  | (_, v) :: ms => Json.nodes v + nodesObj ms

end

/-- Strong induction principle for the nested inductive `Json`. -/
def Json.inductionOn {P : Json → Prop} (v : Json)
    (hnull : P Json.null)
    (hbool : ∀ b, P (Json.bool b))
    (hnum : ∀ n, P (Json.num n))
    (hstr : ∀ s, P (Json.str s))
    (harr : ∀ xs, (∀ x, x ∈ xs → P x) → P (Json.arr xs))
    (hobj : ∀ ms, (∀ kv, kv ∈ ms → P kv.2) → P (Json.obj ms)) : P v :=
  match v with
  | .null => hnull
  | .bool b => hbool b
  | .num n => hnum n
  | .str s => hstr s
  | .arr xs => harr xs (fun x hx =>
      Json.inductionOn x hnull hbool hnum hstr harr hobj)
  | .obj ms => hobj ms (fun kv hkv =>
      Json.inductionOn kv.2 hnull hbool hnum hstr harr hobj)
termination_by sizeOf v
decreasing_by
  · have h := List.sizeOf_lt_of_mem hx
    simp only [Json.arr.sizeOf_spec]
    omega
  · have h := List.sizeOf_lt_of_mem hkv
    obtain ⟨a, b⟩ := kv
    simp only [Prod.mk.sizeOf_spec] at h ⊢
    simp only [Json.obj.sizeOf_spec]
    omega

/-- Drop leading JSON whitespace. -/
def skipWs (s : List Char) : List Char := s.dropWhile isWsChar

/-- Match an expected literal tail, returning the remainder. -/
def expect : List Char → List Char → Option (List Char)
  | [], s => some s
  | _ :: _, [] => none
  | c :: cs, x :: xs => if x = c then expect cs xs else none

/-- Value of a hexadecimal digit character. -/
def hexVal (c : Char) : Nat :=
  if 48 ≤ c.toNat && c.toNat ≤ 57 then c.toNat - 48
  else if 97 ≤ c.toNat then c.toNat - 87
  else c.toNat - 55

/-- Hexadecimal digit test (both cases). -/
def isHexDigit (c : Char) : Bool :=
  (48 ≤ c.toNat && c.toNat ≤ 57) || (97 ≤ c.toNat && c.toNat ≤ 102)
    || (65 ≤ c.toNat && c.toNat ≤ 70)

/-- Inverse of the two-character string escapes. -/
def unescapeChar (c : Char) : Option Char :=
  if c = '"' then some '"'
  else if c = '\\' then some '\\'
  else if c = '/' then some '/'
  else if c = 'b' then some (Char.ofNat 8)
  else if c = 'f' then some (Char.ofNat 12)
  else if c = 'n' then some (Char.ofNat 10)
  else if c = 'r' then some (Char.ofNat 13)
  else if c = 't' then some (Char.ofNat 9)
  else none

/-- Parse the body of a JSON string after the opening quote; returns the
decoded characters and the remainder after the closing quote. -/
def parseStringBody : List Char → Option (List Char × List Char)
  | [] => none
  | c :: r =>
    if c = '"' then some ([], r)
    else if c = '\\' then
      match r with
      | [] => none
      | e :: r2 =>
        if e = 'u' then
          match r2 with
          | h1 :: h2 :: h3 :: h4 :: r3 =>
            if isHexDigit h1 && isHexDigit h2 && isHexDigit h3 && isHexDigit h4 then
              match parseStringBody r3 with
              | some (cs, rest) =>
                  some (Char.ofNat (((hexVal h1 * 16 + hexVal h2) * 16 + hexVal h3) * 16
                    + hexVal h4) :: cs, rest)
              | none => none
            else none
          | _ => none
        else
          match unescapeChar e with
          | some u =>
            match parseStringBody r2 with
            | some (cs, rest) => some (u :: cs, rest)
            | none => none
          | none => none
    else
      match parseStringBody r with
      | some (cs, rest) => some (c :: cs, rest)
      | none => none

/-- Numeric value of a digit run. -/
def valOfDigits (ds : List Char) : Nat :=
  ds.foldl (fun a c => 10 * a + (c.toNat - 48)) 0

/-- Parse a nonempty run of decimal digits. -/
def parseDigits (s : List Char) : Option (Nat × List Char) :=
  match s.takeWhile isDigitChar with
  | [] => none
  | ds => some (valOfDigits ds, s.dropWhile isDigitChar)

/-- Parse a comma-separated sequence of items with `p`, terminated by the
closing bracket `close`.  The fuel bounds the number of items. -/
def parseSeq {α : Type} (p : List Char → Option (α × List Char)) (close : Char) :
    Nat → List Char → Option (List α × List Char)
  | 0, _ => none
  | fuel + 1, s =>
    match p s with
    | none => none
    | some (a, r) =>
      match skipWs r with
      | [] => none
      | c :: r2 =>
        if c = ',' then
          match parseSeq p close fuel r2 with
          | some (as, rest) => some (a :: as, rest)
          | none => none
        else if c = close then some ([a], r2)
        else none

/-- Parse one `"key": value` object member, with `p` parsing the value. -/
def parseMember {α : Type} (p : List Char → Option (α × List Char)) (s : List Char) :
    Option ((List Char × α) × List Char) :=
  match skipWs s with
  | [] => none
  | c :: r =>
    if c = '"' then
      match parseStringBody r with
      | some (key, r2) =>
        match skipWs r2 with
        | [] => none
        | c2 :: r3 =>
          if c2 = ':' then
            match p r3 with
            | some (v, rest) => some ((key, v), rest)
            | none => none
          else none
      | none => none
    else none

/-- Recursive-descent JSON value parser (model of `json.loads`), with a
fuel bound on nesting/looping.  Numbers are integers. -/
def parseValue : Nat → List Char → Option (Json × List Char)
  | 0, _ => none
  | fuel + 1, s =>
    match skipWs s with
    | [] => none
    | c :: r =>
      if c = 'n' then
        match expect ['u', 'l', 'l'] r with
        | some r2 => some (Json.null, r2)
        | none => none
      else if c = 't' then
        match expect ['r', 'u', 'e'] r with
        | some r2 => some (Json.bool true, r2)
        | none => none
      else if c = 'f' then
        match expect ['a', 'l', 's', 'e'] r with
        | some r2 => some (Json.bool false, r2)
        | none => none
      else if c = '"' then
        match parseStringBody r with
        | some (cs, rest) => some (Json.str cs, rest)
        | none => none
      else if c = '[' then
        match skipWs r with
        | [] => none
        | c2 :: r2 =>
          if c2 = ']' then some (Json.arr [], r2)
          else
            match parseSeq (parseValue fuel) ']' fuel (c2 :: r2) with
            | some (xs, rest) => some (Json.arr xs, rest)
            | none => none
      else if c = '{' then
        match skipWs r with
        | [] => none
        | c2 :: r2 =>
          if c2 = '}' then some (Json.obj [], r2)
          else
            match parseSeq (parseMember (parseValue fuel)) '}' fuel (c2 :: r2) with
            | some (ms, rest) => some (Json.obj ms, rest)
            | none => none
      else if c = '-' then
        match parseDigits r with
        | some (m, rest) => some (Json.num (-(Int.ofNat m)), rest)
        | none => none
      else if isDigitChar c then
        match parseDigits (c :: r) with
        | some (m, rest) => some (Json.num (Int.ofNat m), rest)
        | none => none
      else none

/-- Model of `json.loads` on a complete document: parse one value and
require only whitespace to remain. -/
def loads (s : List Char) : Option Json :=
  match parseValue (s.length + 1) s with
  | some (v, rest) =>
    match skipWs rest with
    | [] => some v
    | _ :: _ => none
  | none => none

/-- Top-level serializer: `json.dumps(v)` for `ind = none`,
`json.dumps(v, indent=n)` for `ind = some n`. -/
def dumps (ind : Option Nat) (v : Json) : List Char := dumpsVal ind 0 v

/-- A list consisting only of JSON whitespace. -/
def wsOnly (s : List Char) : Prop := ∀ c ∈ s, isWsChar c = true

theorem wsOnly_nil : wsOnly [] := by
  intro c hc
  cases hc

theorem wsOnly_spaces (n : Nat) : wsOnly (spaces n) := by
  intro c hc
  have h := List.eq_of_mem_replicate hc
  subst h
  decide

theorem wsOnly_cons {c : Char} {s : List Char} (h1 : isWsChar c = true) (h2 : wsOnly s) :
    wsOnly (c :: s) := by
  intro d hd
  rw [List.mem_cons] at hd
  rcases hd with rfl | hd
  · exact h1
  · exact h2 _ hd

theorem wsOnly_wsBreak (ind : Option Nat) (k : Nat) : wsOnly (wsBreak ind k) := by
  cases ind with
  | none => exact wsOnly_nil
  | some n => exact wsOnly_cons (by decide) (wsOnly_spaces _)

theorem wsOnly_wsSepTail (ind : Option Nat) (k : Nat) : wsOnly (wsSepTail ind k) := by
  cases ind with
  | none =>
    intro c hc
    simp only [wsSepTail, List.mem_cons, List.not_mem_nil, or_false] at hc
    subst hc
    decide
  | some n => exact wsOnly_cons (by decide) (wsOnly_spaces _)

theorem skipWs_ws_append {w : List Char} (hw : wsOnly w) (s : List Char) :
    skipWs (w ++ s) = skipWs s := by
  induction w with
  | nil => rfl
  | cons c cs ih =>
    have hc : isWsChar c = true := hw c (by simp)
    have hcs : wsOnly cs := fun d hd => hw d (by simp [hd])
    simp only [List.cons_append, skipWs, List.dropWhile_cons, hc, if_true]
    exact ih hcs

theorem skipWs_cons_nonws {c : Char} (hc : isWsChar c = false) (s : List Char) :
    skipWs (c :: s) = c :: s := by
  simp only [skipWs, List.dropWhile_cons, hc]
  simp

theorem digit_not_ws {c : Char} (h : isDigitChar c = true) : isWsChar c = false := by
  simp only [isDigitChar, Bool.and_eq_true, decide_eq_true_eq] at h
  simp only [isWsChar, Bool.or_eq_false_iff, decide_eq_false_iff_not]
  omega

theorem charOfNat_digit_toNat : ∀ m, m < 10 → (Char.ofNat (48 + m)).toNat = 48 + m := by
  decide

theorem isDigitChar_ofNat : ∀ m, m < 10 → isDigitChar (Char.ofNat (48 + m)) = true := by
  decide

theorem takeWhile_append_all {α : Type} {p : α → Bool} :
    ∀ (l r : List α), (∀ c ∈ l, p c = true) → (l ++ r).takeWhile p = l ++ r.takeWhile p := by
  intro l r h
  induction l with
  | nil => rfl
  | cons a as ih =>
    have hhd : p a = true := h _ (List.mem_cons_self _ _)
    have htl := ih fun c hc => h _ (List.mem_cons_of_mem _ hc)
    simp [List.takeWhile_cons, hhd, htl]

theorem dropWhile_append_all {α : Type} {p : α → Bool} :
    ∀ (l r : List α), (∀ c ∈ l, p c = true) → (l ++ r).dropWhile p = r.dropWhile p := by
  intro l r h
  induction l with
  | nil => rfl
  | cons a as ih =>
    have hhd : p a = true := h _ (List.mem_cons_self _ _)
    have htl := ih fun c hc => h _ (List.mem_cons_of_mem _ hc)
    simp [List.dropWhile_cons, hhd, htl]

theorem natToChars_ne_nil (n : Nat) : natToChars n ≠ [] := by
  rw [natToChars]
  split
  · simp
  · simp

theorem natToChars_digits (n : Nat) : ∀ c ∈ natToChars n, isDigitChar c = true := by
  induction n using Nat.strong_induction_on with
  | _ n ih =>
    intro c hc
    rw [natToChars] at hc
    split at hc
    · rename_i h
      simp only [List.mem_singleton] at hc
      subst hc
      exact isDigitChar_ofNat n h
    · rename_i h
      rcases List.mem_append.mp hc with h1 | h1
      · exact ih (n / 10) (Nat.div_lt_self (by omega) (by omega)) c h1
      · simp only [List.mem_singleton] at h1
        subst h1
        exact isDigitChar_ofNat (n % 10) (Nat.mod_lt _ (by omega))

theorem valOfDigits_natToChars (n : Nat) : valOfDigits (natToChars n) = n := by
  induction n using Nat.strong_induction_on with
  | _ n ih =>
    rw [natToChars]
    split
    · rename_i h
      simp only [valOfDigits, List.foldl_cons, List.foldl_nil]
      rw [charOfNat_digit_toNat n h]
      omega
    · rename_i h
      simp only [valOfDigits, List.foldl_append, List.foldl_cons, List.foldl_nil]
      have ihv := ih (n / 10) (Nat.div_lt_self (by omega) (by omega))
      simp only [valOfDigits] at ihv
      rw [ihv, charOfNat_digit_toNat (n % 10) (Nat.mod_lt _ (by omega))]
      omega

/-- First character of `rest` (if any) is not a digit: the condition under
which a printed number followed by `rest` parses back unambiguously. -/
def noLeadDigit (s : List Char) : Bool :=
  match s with
  | [] => true
  | c :: _ => !(isDigitChar c)

theorem parseDigits_natToChars {rest : List Char} (n : Nat) (hrest : noLeadDigit rest = true) :
    parseDigits (natToChars n ++ rest) = some (n, rest) := by
  have hall := natToChars_digits n
  have htake : (natToChars n ++ rest).takeWhile isDigitChar = natToChars n ++ rest.takeWhile isDigitChar :=
    takeWhile_append_all _ _ hall
  have hdrop : (natToChars n ++ rest).dropWhile isDigitChar = rest.dropWhile isDigitChar :=
    dropWhile_append_all _ _ hall
  have hrt : rest.takeWhile isDigitChar = [] := by
    cases rest with
    | nil => rfl
    | cons c cs =>
      simp only [noLeadDigit, Bool.not_eq_true'] at hrest
      simp [List.takeWhile_cons, hrest]
  have hrd : rest.dropWhile isDigitChar = rest := by
    cases rest with
    | nil => rfl
    | cons c cs =>
      simp only [noLeadDigit, Bool.not_eq_true'] at hrest
      simp [List.dropWhile_cons, hrest]
  rw [parseDigits]
  rw [htake, hrt, List.append_nil]
  have hne := natToChars_ne_nil n
  cases hnc : natToChars n with
  | nil => exact absurd hnc hne
  | cons c cs =>
    simp only []
    rw [← hnc, valOfDigits_natToChars, hdrop, hrd]

theorem psb_quote (rest : List Char) : parseStringBody ('"' :: rest) = some ([], rest) := by
  rw [parseStringBody.eq_def]
  simp

theorem psb_esc2 {u : Char} (esc : Char) (hu : unescapeChar esc = some u) (hesc : ¬esc = 'u')
    (T : List Char) :
    parseStringBody ('\\' :: esc :: T)
      = (parseStringBody T).map (fun p => (u :: p.1, p.2)) := by
  rw [parseStringBody.eq_def]
  simp only [if_neg (by decide : ¬('\\' : Char) = '"'), if_pos rfl, if_neg hesc, hu]
  cases hp : parseStringBody T with
  | none => simp [hp]
  | some p =>
    obtain ⟨cs, rest⟩ := p
    simp [hp]

theorem hexDigitChar_isHex : ∀ x, x < 16 → isHexDigit (hexDigitChar x) = true := by
  decide

theorem hexVal_hexDigitChar : ∀ x, x < 16 → hexVal (hexDigitChar x) = x := by
  decide

theorem psb_escU (h3 h4 : Char) (hh3 : isHexDigit h3 = true) (hh4 : isHexDigit h4 = true)
    (T : List Char) :
    parseStringBody ('\\' :: 'u' :: '0' :: '0' :: h3 :: h4 :: T)
      = (parseStringBody T).map
          (fun p => (Char.ofNat (hexVal h3 * 16 + hexVal h4) :: p.1, p.2)) := by
  rw [parseStringBody.eq_def]
  simp only [if_neg (by decide : ¬('\\' : Char) = '"'), if_pos rfl,
    (by decide : isHexDigit '0' = true), hh3, hh4, Bool.and_self, Bool.and_true, Bool.true_and]
  have h0 : hexVal '0' = 0 := by decide
  cases hp : parseStringBody T with
  | none => simp [hp]
  | some p =>
    obtain ⟨cs, rest⟩ := p
    simp [hp, h0]

theorem psb_plain (c : Char) (hq : ¬c = '"') (hb : ¬c = '\\') (T : List Char) :
    parseStringBody (c :: T) = (parseStringBody T).map (fun p => (c :: p.1, p.2)) := by
  rw [parseStringBody.eq_def]
  simp only [if_neg hq, if_neg hb]
  cases hp : parseStringBody T with
  | none => simp [hp]
  | some p =>
    obtain ⟨cs, rest⟩ := p
    simp [hp]

/-- Round trip for string bodies: parsing an escaped string body followed by
the closing quote recovers the original characters. -/
theorem parseStringBody_escape : ∀ (s rest : List Char),
    parseStringBody (escapeChars s ++ '"' :: rest) = some (s, rest) := by
  intro s rest
  induction s with
  | nil =>
    rw [escapeChars]
    rw [List.nil_append]
    exact psb_quote rest
  | cons c cs ih =>
    rw [escapeChars, List.append_assoc]
    rw [escChar]
    by_cases h1 : c = '"'
    · subst h1
      rw [if_pos rfl]
      simp only [List.cons_append, List.nil_append]
      rw [psb_esc2 '"' rfl (by decide), ih]
      rfl
    · rw [if_neg h1]
      by_cases h2 : c = '\\'
      · subst h2
        rw [if_pos rfl]
        simp only [List.cons_append, List.nil_append]
        rw [psb_esc2 '\\' rfl (by decide), ih]
        rfl
      · rw [if_neg h2]
        by_cases h3 : c.toNat = 8
        · rw [if_pos h3]
          simp only [List.cons_append, List.nil_append]
          rw [psb_esc2 'b' rfl (by decide), ih]
          have hc : Char.ofNat 8 = c := by
            rw [← h3, Char.ofNat_toNat]
          rw [hc]
          rfl
        · rw [if_neg h3]
          by_cases h4 : c.toNat = 12
          · rw [if_pos h4]
            simp only [List.cons_append, List.nil_append]
            rw [psb_esc2 'f' rfl (by decide), ih]
            have hc : Char.ofNat 12 = c := by
              rw [← h4, Char.ofNat_toNat]
            rw [hc]
            rfl
          · rw [if_neg h4]
            by_cases h5 : c.toNat = 10
            · rw [if_pos h5]
              simp only [List.cons_append, List.nil_append]
              rw [psb_esc2 'n' rfl (by decide), ih]
              have hc : Char.ofNat 10 = c := by
                rw [← h5, Char.ofNat_toNat]
              rw [hc]
              rfl
            · rw [if_neg h5]
              by_cases h6 : c.toNat = 13
              · rw [if_pos h6]
                simp only [List.cons_append, List.nil_append]
                rw [psb_esc2 'r' rfl (by decide), ih]
                have hc : Char.ofNat 13 = c := by
                  rw [← h6, Char.ofNat_toNat]
                rw [hc]
                rfl
              · rw [if_neg h6]
                by_cases h7 : c.toNat = 9
                · rw [if_pos h7]
                  simp only [List.cons_append, List.nil_append]
                  rw [psb_esc2 't' rfl (by decide), ih]
                  have hc : Char.ofNat 9 = c := by
                    rw [← h7, Char.ofNat_toNat]
                  rw [hc]
                  rfl
                · rw [if_neg h7]
                  by_cases h8 : c.toNat < 32
                  · rw [if_pos h8, escU]
                    simp only [List.cons_append, List.nil_append]
                    rw [psb_escU _ _ (hexDigitChar_isHex _ (by omega))
                      (hexDigitChar_isHex _ (by omega)), ih]
                    rw [hexVal_hexDigitChar _ (by omega), hexVal_hexDigitChar _ (by omega)]
                    have hv : c.toNat / 16 * 16 + c.toNat % 16 = c.toNat := by omega
                    rw [hv, Char.ofNat_toNat]
                    rfl
                  · rw [if_neg h8]
                    simp only [List.cons_append, List.nil_append]
                    rw [psb_plain c h1 h2, ih]
                    rfl

theorem ws_not_digit {c : Char} (h : isWsChar c = true) : isDigitChar c = false := by
  simp only [isWsChar, Bool.or_eq_true, decide_eq_true_eq] at h
  simp only [isDigitChar, Bool.and_eq_false_iff, decide_eq_false_iff_not]
  omega

theorem digit_ne_delims {c : Char} (h : isDigitChar c = true) :
    ¬c = 'n' ∧ ¬c = 't' ∧ ¬c = 'f' ∧ ¬c = '"' ∧ ¬c = '[' ∧ ¬c = '{' ∧ ¬c = '-'
      ∧ ¬c = ']' ∧ ¬c = '}' := by
  refine ⟨?_, ?_, ?_, ?_, ?_, ?_, ?_, ?_, ?_⟩ <;>
    · intro he
      subst he
      exact absurd h (by decide)

theorem natToChars_head (n : Nat) :
    ∃ c t, natToChars n = c :: t ∧ isDigitChar c = true := by
  cases hnc : natToChars n with
  | nil => exact absurd hnc (natToChars_ne_nil n)
  | cons c t =>
    refine ⟨c, t, rfl, natToChars_digits n c ?_⟩
    rw [hnc]
    simp

/-- The serialization of any value starts with a printable non-whitespace
character which is not a closing bracket. -/
theorem dumpsVal_head (ind : Option Nat) (k : Nat) (v : Json) :
    ∃ c t, dumpsVal ind k v = c :: t ∧ isWsChar c = false ∧ ¬c = ']' ∧ ¬c = '}' := by
  cases v with
  | null => exact ⟨'n', _, by rw [dumpsVal, litNull], by decide, by decide, by decide⟩
  | bool b =>
    cases b with
    | true => exact ⟨'t', _, by rw [dumpsVal, litTrue], by decide, by decide, by decide⟩
    | false => exact ⟨'f', _, by rw [dumpsVal, litFalse], by decide, by decide, by decide⟩
  | num n =>
    rw [dumpsVal, intToChars]
    by_cases hn : n < 0
    · rw [if_pos hn]
      exact ⟨'-', _, rfl, by decide, by decide, by decide⟩
    · rw [if_neg hn]
      obtain ⟨c, t, hct, hdig⟩ := natToChars_head n.toNat
      obtain ⟨_, _, _, _, _, _, _, h8, h9⟩ := digit_ne_delims hdig
      exact ⟨c, t, hct, digit_not_ws hdig, h8, h9⟩
  | str s => exact ⟨'"', _, by rw [dumpsVal], by decide, by decide, by decide⟩
  | arr xs =>
    cases xs with
    | nil => exact ⟨'[', _, by rw [dumpsVal], by decide, by decide, by decide⟩
    | cons x l => exact ⟨'[', _, by rw [dumpsVal], by decide, by decide, by decide⟩
  | obj ms =>
    cases ms with
    | nil => exact ⟨'{', _, by rw [dumpsVal], by decide, by decide, by decide⟩
    | cons m l => exact ⟨'{', _, by rw [dumpsVal], by decide, by decide, by decide⟩

theorem dumpsList_head (ind : Option Nat) (k : Nat) (x : Json) (xs : List Json) :
    ∃ c t, dumpsList ind k (x :: xs) = c :: t ∧ isWsChar c = false ∧ ¬c = ']' ∧ ¬c = '}' := by
  obtain ⟨c, t, hct, hnw, h1, h2⟩ := dumpsVal_head ind k x
  cases xs with
  | nil => exact ⟨c, t, by rw [dumpsList, hct], hnw, h1, h2⟩
  | cons y l =>
    refine ⟨c, t ++ (wsSep ind k ++ dumpsList ind k (y :: l)), ?_, hnw, h1, h2⟩
    rw [dumpsList, hct]
    simp

theorem dumpsMembers_head (ind : Option Nat) (k : Nat) (m : List Char × Json)
    (ms : List (List Char × Json)) :
    ∃ t, dumpsMembers ind k (m :: ms) = '"' :: t := by
  obtain ⟨key, v⟩ := m
  cases ms with
  | nil => exact ⟨_, by rw [dumpsMembers]⟩
  | cons m2 l =>
    refine ⟨escapeChars key ++ ['"', ':', ' '] ++ dumpsVal ind k v
      ++ (wsSep ind k ++ dumpsMembers ind k (m2 :: l)), ?_⟩
    rw [dumpsMembers]
    simp

theorem nodes_pos (v : Json) : 1 ≤ v.nodes := by
  cases v <;> simp [Json.nodes]

theorem nodesList_mem_le {x : Json} : ∀ {xs : List Json}, x ∈ xs → x.nodes ≤ nodesList xs := by
  intro xs h
  induction xs with
  | nil => cases h
  | cons y l ih =>
    rw [List.mem_cons] at h
    rw [nodesList]
    rcases h with rfl | h
    · omega
    · have := ih h
      omega

theorem nodesObj_mem_le {kv : List Char × Json} :
    ∀ {ms : List (List Char × Json)}, kv ∈ ms → kv.2.nodes ≤ nodesObj ms := by
  intro ms h
  induction ms with
  | nil => cases h
  | cons m l ih =>
    obtain ⟨a, b⟩ := m
    rw [List.mem_cons] at h
    rw [nodesObj]
    rcases h with rfl | h
    · dsimp only
      omega
    · have := ih h
      omega

theorem length_le_nodesList : ∀ xs : List Json, xs.length ≤ nodesList xs := by
  intro xs
  induction xs with
  | nil => simp [nodesList]
  | cons x l ih =>
    rw [nodesList]
    have := nodes_pos x
    simp only [List.length_cons]
    omega

theorem length_le_nodesObj : ∀ ms : List (List Char × Json), ms.length ≤ nodesObj ms := by
  intro ms
  induction ms with
  | nil => simp [nodesObj]
  | cons m l ih =>
    obtain ⟨a, b⟩ := m
    rw [nodesObj]
    have := nodes_pos b
    simp only [List.length_cons]
    omega

/-- Join pre-rendered item texts with a separator (the shape shared by
array items and object members in the serializer). -/
def textsJoin (sep : List Char) : List (List Char) → List Char
  | [] => []
  | [t] => t
  | t :: t2 :: rest => t ++ sep ++ textsJoin sep (t2 :: rest)

theorem dumpsList_eq_join (ind : Option Nat) (k : Nat) :
    ∀ l : List Json, dumpsList ind k l = textsJoin (wsSep ind k) (l.map (dumpsVal ind k)) := by
  intro l
  induction l with
  | nil => rfl
  | cons x t ih =>
    cases t with
    | nil => rfl
    | cons y t2 =>
      rw [dumpsList, ih]
      simp only [List.map_cons]
      rw [textsJoin]

theorem dumpsMembers_eq_join (ind : Option Nat) (k : Nat) :
    ∀ l : List (List Char × Json),
      dumpsMembers ind k l = textsJoin (wsSep ind k) (l.map (dumpsMember ind k)) := by
  intro l
  induction l with
  | nil => rfl
  | cons m t ih =>
    obtain ⟨key, v⟩ := m
    cases t with
    | nil => rfl
    | cons m2 t2 =>
      rw [dumpsMembers, ih]
      simp only [List.map_cons]
      rw [textsJoin]
      rfl

theorem nodesList_le_dumpsList (ind : Option Nat) (k : Nat) :
    ∀ l : List Json, (∀ x ∈ l, Json.nodes x ≤ (dumpsVal ind k x).length) →
      nodesList l ≤ (dumpsList ind k l).length := by
  intro l h
  induction l with
  | nil => simp [nodesList, dumpsList]
  | cons x t ih =>
    cases t with
    | nil =>
      rw [nodesList, nodesList, dumpsList]
      have := h x (by simp)
      omega
    | cons y t2 =>
      rw [nodesList, dumpsList]
      have h1 := h x (by simp)
      have h2 := ih (fun z hz => h z (by simp [hz]))
      simp only [List.length_append]
      omega

theorem nodesObj_le_dumpsMembers (ind : Option Nat) (k : Nat) :
    ∀ l : List (List Char × Json), (∀ kv ∈ l, Json.nodes kv.2 ≤ (dumpsVal ind k kv.2).length) →
      nodesObj l ≤ (dumpsMembers ind k l).length := by
  intro l h
  induction l with
  | nil => simp [nodesObj, dumpsMembers]
  | cons m t ih =>
    obtain ⟨key, v⟩ := m
    cases t with
    | nil =>
      rw [nodesObj, nodesObj, dumpsMembers]
      have := h (key, v) (by simp)
      simp only [List.length_cons, List.length_append]
      dsimp only at this
      omega
    | cons m2 t2 =>
      rw [nodesObj, dumpsMembers]
      have h1 := h (key, v) (by simp)
      have h2 := ih (fun z hz => h z (by simp [hz]))
      simp only [List.length_cons, List.length_append]
      dsimp only at h1
      omega

/-- Every JSON node contributes at least one character to its
serialization; this makes `length + 1` valid parser fuel. -/
theorem nodes_le_dumpsVal_length (v : Json) :
    ∀ (ind : Option Nat) (k : Nat), v.nodes ≤ (dumpsVal ind k v).length := by
  induction v using Json.inductionOn with
  | hnull => intro ind k; rw [dumpsVal]; simp [Json.nodes, litNull]
  | hbool b => intro ind k; cases b <;> (rw [dumpsVal]; simp [Json.nodes, litTrue, litFalse])
  | hnum n =>
    intro ind k
    rw [dumpsVal, Json.nodes, intToChars]
    by_cases hn : n < 0
    · rw [if_pos hn]
      simp
    · rw [if_neg hn]
      obtain ⟨c, t, hct, _⟩ := natToChars_head n.toNat
      rw [hct]
      simp
  | hstr s => intro ind k; rw [dumpsVal, Json.nodes]; simp
  | harr xs ih =>
    intro ind k
    cases xs with
    | nil => rw [dumpsVal, Json.nodes, nodesList]; simp
    | cons x l =>
      rw [dumpsVal, Json.nodes]
      have := nodesList_le_dumpsList ind (childK ind k) (x :: l)
        (fun z hz => ih z hz ind (childK ind k))
      simp only [List.length_cons, List.length_append]
      omega
  | hobj ms ih =>
    intro ind k
    cases ms with
    | nil => rw [dumpsVal, Json.nodes, nodesObj]; simp
    | cons m l =>
      rw [dumpsVal, Json.nodes]
      have := nodesObj_le_dumpsMembers ind (childK ind k) (m :: l)
        (fun z hz => ih z hz ind (childK ind k))
      simp only [List.length_cons, List.length_append]
      omega

theorem noLeadDigit_ws_close {cw : List Char} (hcw : wsOnly cw) {close : Char}
    (hclose : close = ']' ∨ close = '}') (rest : List Char) :
    noLeadDigit (cw ++ close :: rest) = true := by
  cases cw with
  | nil =>
    rcases hclose with rfl | rfl <;> (rw [List.nil_append, noLeadDigit]; decide)
  | cons c t =>
    rw [List.cons_append, noLeadDigit]
    rw [ws_not_digit (hcw c (by simp))]
    rfl

theorem parseSeq_join {α : Type} (p : List Char → Option (α × List Char)) (e : α → List Char)
    (close : Char) (sepT : List Char) (hsepT : wsOnly sepT)
    (hclose : close = ']' ∨ close = '}') :
    ∀ (xs : List α) (fuel : Nat) (w cw rest : List Char),
      xs ≠ [] → xs.length ≤ fuel → wsOnly w → wsOnly cw →
      (∀ x ∈ xs, ∀ w2 r2, wsOnly w2 → noLeadDigit r2 = true →
        p (w2 ++ e x ++ r2) = some (x, r2)) →
      parseSeq p close fuel (w ++ textsJoin (',' :: sepT) (xs.map e) ++ (cw ++ close :: rest))
        = some (xs, rest) := by
  intro xs
  induction xs with
  | nil => intro fuel w cw rest hne; exact absurd rfl hne
  | cons x t ih =>
    intro fuel w cw rest _ hlen hw hcw hitems
    cases fuel with
    | zero => simp at hlen
    | succ fuel =>
      have hclose_nonws : isWsChar close = false := by
        rcases hclose with rfl | rfl <;> decide
      have hclose_ne_comma : ¬close = ',' := by
        rcases hclose with rfl | rfl <;> decide
      cases t with
      | nil =>
        simp only [List.map_cons, List.map_nil, textsJoin]
        rw [parseSeq]
        rw [hitems x (by simp) w (cw ++ close :: rest) hw
          (noLeadDigit_ws_close hcw hclose rest)]
        dsimp only
        rw [skipWs_ws_append hcw, skipWs_cons_nonws hclose_nonws]
        dsimp only
        rw [if_neg hclose_ne_comma, if_pos rfl]
      | cons y t2 =>
        simp only [List.map_cons, textsJoin]
        rw [parseSeq]
        have harr : w ++ (e x ++ (',' :: sepT) ++ textsJoin (',' :: sepT) (e y :: t2.map e))
            ++ (cw ++ close :: rest)
            = w ++ e x ++ (',' :: (sepT ++ textsJoin (',' :: sepT) (e y :: t2.map e)
              ++ (cw ++ close :: rest))) := by
          simp [List.append_assoc]
        rw [harr]
        rw [hitems x (by simp) w _ hw (by rw [noLeadDigit]; decide)]
        dsimp only
        rw [skipWs_cons_nonws (by decide)]
        dsimp only
        simp only [Char.reduceEq, reduceIte]
        have hrec := ih fuel sepT cw rest (by simp) (by simp at hlen ⊢; omega) hsepT hcw
          (fun z hz => hitems z (by simp [hz]))
        simp only [List.map_cons] at hrec
        rw [hrec]

theorem parseMember_dumps {p : List Char → Option (Json × List Char)} (ind : Option Nat)
    (k : Nat) (kv : List Char × Json)
    (hp : ∀ w2 r2, wsOnly w2 → noLeadDigit r2 = true →
      p (w2 ++ dumpsVal ind k kv.2 ++ r2) = some (kv.2, r2)) :
    ∀ w r2, wsOnly w → noLeadDigit r2 = true →
      parseMember p (w ++ dumpsMember ind k kv ++ r2) = some (kv, r2) := by
  obtain ⟨key, v⟩ := kv
  intro w r2 hw hr2
  rw [parseMember]
  have h1 : w ++ dumpsMember ind k (key, v) ++ r2
      = w ++ '"' :: (escapeChars key ++ ('"' :: ':' :: ' ' :: (dumpsVal ind k v ++ r2))) := by
    simp [dumpsMember, List.append_assoc]
  rw [h1, skipWs_ws_append hw, skipWs_cons_nonws (by decide)]
  dsimp only
  simp only [Char.reduceEq, reduceIte]
  rw [parseStringBody_escape key (':' :: ' ' :: (dumpsVal ind k v ++ r2))]
  dsimp only
  rw [skipWs_cons_nonws (by decide)]
  dsimp only
  simp only [Char.reduceEq, reduceIte]
  have h2 : (' ' :: (dumpsVal ind k v ++ r2)) = [' '] ++ dumpsVal ind k v ++ r2 := by simp
  rw [h2, hp [' '] r2 (by intro c hc; simp at hc; subst hc; decide) hr2]

/-- Main round-trip lemma: the parser, run on the serialization of `v`
(with any leading whitespace and any non-digit-leading remainder appended),
returns exactly `v` and the remainder. -/
theorem parseValue_dumps : ∀ (fuel : Nat) (v : Json) (ind : Option Nat) (k : Nat)
    (w rest : List Char),
    Json.nodes v ≤ fuel → wsOnly w → noLeadDigit rest = true →
    parseValue fuel (w ++ dumpsVal ind k v ++ rest) = some (v, rest) := by
  intro fuel
  induction fuel with
  | zero =>
    intro v ind k w rest hn _ _
    exfalso
    have := nodes_pos v
    omega
  | succ fuel ih =>
    intro v ind k w rest hn hw hrest
    cases v with
    | null =>
      rw [dumpsVal, parseValue]
      have h1 : w ++ litNull ++ rest = w ++ 'n' :: ('u' :: 'l' :: 'l' :: rest) := by
        simp [litNull]
      rw [h1, skipWs_ws_append hw, skipWs_cons_nonws (by decide)]
      dsimp only
      simp only [Char.reduceEq, reduceIte]
      simp [expect]
    | bool b =>
      cases b with
      | true =>
        rw [dumpsVal, parseValue]
        have h1 : w ++ litTrue ++ rest = w ++ 't' :: ('r' :: 'u' :: 'e' :: rest) := by
          simp [litTrue]
        rw [h1, skipWs_ws_append hw, skipWs_cons_nonws (by decide)]
        dsimp only
        simp only [Char.reduceEq, reduceIte]
        simp [expect]
      | false =>
        rw [dumpsVal, parseValue]
        have h1 : w ++ litFalse ++ rest
            = w ++ 'f' :: ('a' :: 'l' :: 's' :: 'e' :: rest) := by
          simp [litFalse]
        rw [h1, skipWs_ws_append hw, skipWs_cons_nonws (by decide)]
        dsimp only
        simp only [Char.reduceEq, reduceIte]
        simp [expect]
    | num n =>
      rw [dumpsVal]
      cases n with
      | ofNat m =>
        rw [intToChars, if_neg (show ¬Int.ofNat m < 0 from Int.not_lt.mpr (Int.ofNat_nonneg m))]
        have htn : (Int.ofNat m).toNat = m := rfl
        rw [htn]
        obtain ⟨c, t, hct, hdig⟩ := natToChars_head m
        obtain ⟨d1, d2, d3, d4, d5, d6, d7, _, _⟩ := digit_ne_delims hdig
        rw [parseValue]
        have h1 : w ++ natToChars m ++ rest = w ++ c :: (t ++ rest) := by
          rw [hct]
          simp
        rw [h1, skipWs_ws_append hw, skipWs_cons_nonws (digit_not_ws hdig)]
        dsimp only
        rw [if_neg d1, if_neg d2, if_neg d3, if_neg d4, if_neg d5, if_neg d6, if_neg d7,
          if_pos hdig]
        have h2 : c :: (t ++ rest) = natToChars m ++ rest := by
          rw [hct]
          simp
        rw [h2, parseDigits_natToChars m hrest]
      | negSucc m =>
        rw [intToChars, if_pos (Int.negSucc_lt_zero m)]
        rw [Int.natAbs_negSucc]
        rw [parseValue]
        have h1 : w ++ ('-' :: natToChars (m + 1)) ++ rest
            = w ++ '-' :: (natToChars (m + 1) ++ rest) := by simp
        rw [h1, skipWs_ws_append hw, skipWs_cons_nonws (by decide)]
        dsimp only
        simp only [Char.reduceEq, reduceIte]
        rw [parseDigits_natToChars (m + 1) hrest]
        rfl
    | str s =>
      rw [dumpsVal, parseValue]
      have h1 : w ++ ('"' :: (escapeChars s ++ ['"'])) ++ rest
          = w ++ '"' :: (escapeChars s ++ ('"' :: rest)) := by
        simp
      rw [h1, skipWs_ws_append hw, skipWs_cons_nonws (by decide)]
      dsimp only
      simp only [Char.reduceEq, reduceIte]
      rw [parseStringBody_escape s rest]
    | arr xs =>
      cases xs with
      | nil =>
        rw [dumpsVal, parseValue]
        have h1 : w ++ ['[', ']'] ++ rest = w ++ '[' :: (']' :: rest) := by simp
        rw [h1, skipWs_ws_append hw, skipWs_cons_nonws (by decide)]
        dsimp only
        simp only [Char.reduceEq, reduceIte]
        rw [skipWs_cons_nonws (by decide)]
        dsimp only
        simp only [Char.reduceEq, reduceIte]
      | cons x xs =>
        rw [Json.nodes] at hn
        rw [dumpsVal, parseValue]
        obtain ⟨c0, t0, hL, hnw0, hne1, hne2⟩ := dumpsList_head ind (childK ind k) x xs
        have h1 : w ++ ('[' :: (wsBreak ind (childK ind k)
              ++ dumpsList ind (childK ind k) (x :: xs) ++ wsBreak ind k ++ [']'])) ++ rest
            = w ++ '[' :: (wsBreak ind (childK ind k)
              ++ (c0 :: (t0 ++ (wsBreak ind k ++ (']' :: rest))))) := by
          rw [hL]
          simp [List.append_assoc]
        rw [h1, skipWs_ws_append hw, skipWs_cons_nonws (by decide)]
        dsimp only
        simp only [Char.reduceEq, reduceIte]
        rw [skipWs_ws_append (wsOnly_wsBreak ind (childK ind k)), skipWs_cons_nonws hnw0]
        dsimp only
        rw [if_neg hne1]
        have h2 : c0 :: (t0 ++ (wsBreak ind k ++ (']' :: rest)))
            = [] ++ textsJoin (',' :: wsSepTail ind (childK ind k))
                ((x :: xs).map (dumpsVal ind (childK ind k)))
              ++ (wsBreak ind k ++ ']' :: rest) := by
          rw [List.nil_append]
          rw [show (',' :: wsSepTail ind (childK ind k)) = wsSep ind (childK ind k) from rfl]
          rw [← dumpsList_eq_join, hL]
          simp
        rw [h2]
        rw [parseSeq_join (parseValue fuel) (dumpsVal ind (childK ind k)) ']'
          (wsSepTail ind (childK ind k)) (wsOnly_wsSepTail _ _) (Or.inl rfl) (x :: xs) fuel
          [] (wsBreak ind k) rest (by simp)
          (le_trans (length_le_nodesList _) (by omega)) wsOnly_nil (wsOnly_wsBreak _ _)
          (fun z hz w2 r2 hw2 hr2 =>
            ih z ind (childK ind k) w2 r2
              (le_trans (nodesList_mem_le hz) (by omega)) hw2 hr2)]
    | obj ms =>
      cases ms with
      | nil =>
        rw [dumpsVal, parseValue]
        have h1 : w ++ ['{', '}'] ++ rest = w ++ '{' :: ('}' :: rest) := by simp
        rw [h1, skipWs_ws_append hw, skipWs_cons_nonws (by decide)]
        dsimp only
        simp only [Char.reduceEq, reduceIte]
        rw [skipWs_cons_nonws (by decide)]
        dsimp only
        simp only [Char.reduceEq, reduceIte]
      | cons m ms =>
        rw [Json.nodes] at hn
        rw [dumpsVal, parseValue]
        obtain ⟨t0, hL⟩ := dumpsMembers_head ind (childK ind k) m ms
        have h1 : w ++ ('{' :: (wsBreak ind (childK ind k)
              ++ dumpsMembers ind (childK ind k) (m :: ms) ++ wsBreak ind k ++ ['}'])) ++ rest
            = w ++ '{' :: (wsBreak ind (childK ind k)
              ++ ('"' :: (t0 ++ (wsBreak ind k ++ ('}' :: rest))))) := by
          rw [hL]
          simp [List.append_assoc]
        rw [h1, skipWs_ws_append hw, skipWs_cons_nonws (by decide)]
        dsimp only
        simp only [Char.reduceEq, reduceIte]
        rw [skipWs_ws_append (wsOnly_wsBreak ind (childK ind k)),
          skipWs_cons_nonws (by decide)]
        dsimp only
        simp only [Char.reduceEq, reduceIte]
        have h2 : '"' :: (t0 ++ (wsBreak ind k ++ ('}' :: rest)))
            = [] ++ textsJoin (',' :: wsSepTail ind (childK ind k))
                ((m :: ms).map (dumpsMember ind (childK ind k)))
              ++ (wsBreak ind k ++ '}' :: rest) := by
          rw [List.nil_append]
          rw [show (',' :: wsSepTail ind (childK ind k)) = wsSep ind (childK ind k) from rfl]
          rw [← dumpsMembers_eq_join, hL]
          simp
        rw [h2]
        rw [parseSeq_join (parseMember (parseValue fuel)) (dumpsMember ind (childK ind k)) '}'
          (wsSepTail ind (childK ind k)) (wsOnly_wsSepTail _ _) (Or.inr rfl) (m :: ms) fuel
          [] (wsBreak ind k) rest (by simp)
          (le_trans (length_le_nodesObj _) (by omega)) wsOnly_nil (wsOnly_wsBreak _ _)
          (fun z hz w2 r2 hw2 hr2 =>
            parseMember_dumps ind (childK ind k) z
              (fun w3 r3 hw3 hr3 =>
                ih z.2 ind (childK ind k) w3 r3
                  (le_trans (nodesObj_mem_le hz) (by omega)) hw3 hr3)
              w2 r2 hw2 hr2)]

/-- Serialize-then-parse is the identity (both modes, any value). -/
theorem loads_dumps (ind : Option Nat) (v : Json) : loads (dumps ind v) = some v := by
  rw [loads, dumps]
  have h := parseValue_dumps ((dumpsVal ind 0 v).length + 1) v ind 0 [] []
    (by have := nodes_le_dumpsVal_length v ind 0; omega) wsOnly_nil rfl
  simp only [List.nil_append, List.append_nil] at h
  rw [h]
  rfl

/-- The CLI JSON rendering step applied to a fetched structure or process
list before console output and file writing: `json.dumps(structure,
indent=2, ensure_ascii=False)` when `--pretty` (the default),
`json.dumps(structure, ensure_ascii=False)` with `--no-pretty`.  The file
write stores exactly this text. -/
def renderJson (pretty : Bool) (v : Json) : List Char :=
  if pretty then dumps (some 2) v else dumps none v

/-- C5: for every structure value obtained in memory, the JSON text
produced by the renderer (pretty or compact) and written to the output
file, when re-parsed as JSON, equals the in-memory structure passed to the
renderer: serialize-then-parse is the identity. -/
theorem claim_C5 : ∀ (pretty : Bool) (v : Json), loads (renderJson pretty v) = some v := by
  intro pretty v
  cases pretty with
  | false => exact loads_dumps none v
  | true => exact loads_dumps (some 2) v

/-- Upper-case hexadecimal digit (as `urllib.parse.quote_plus` emits). -/
def hexUpper (n : Nat) : Char := Char.ofNat (if n < 10 then 48 + n else 55 + n)

/-- Percent-encoding of one byte. -/
def percentByte (b : Nat) : List Char := ['%', hexUpper (b / 16), hexUpper (b % 16)]

/-- Characters `urllib.parse.quote_plus` leaves unencoded
(letters, digits, `_ . - ~`). -/
def isQuoteSafe (c : Char) : Bool :=
  (65 ≤ c.toNat && c.toNat ≤ 90) || (97 ≤ c.toNat && c.toNat ≤ 122)
    || (48 ≤ c.toNat && c.toNat ≤ 57)
    || c = '_' || c = '.' || c = '-' || c = '~'

/-- `urllib.parse.quote_plus` on one character: safe characters pass
through, space becomes `+`, everything else is percent-encoded per UTF-8
byte. -/
def quotePlusChar (c : Char) : List Char :=
  if isQuoteSafe c then [c]
  else if c = ' ' then ['+']
  else (String.utf8EncodeChar c).foldr (fun b acc => percentByte b.toNat ++ acc) []

/-- Model of `urllib.parse.quote_plus`. -/
def quotePlus (s : String) : String :=
  String.mk (s.data.foldr (fun c acc => quotePlusChar c ++ acc) [])

/-- The message of the `RuntimeError` raised by both API methods when no
session has been established. -/
def notConnectedMsg : String := "Not connected to Salesforce"

/-- An authenticated Salesforce session: instance host and bearer token
(the `sf_instance` and `session_id` of the `simple_salesforce.Salesforce`
object). -/
structure Session where
  sf_instance : String
  session_id : String

/-- The `SalesforceClient` state: the credentials given to `__init__` and
the optional connection `self.sf` (None until `connect` succeeds). -/
structure SalesforceClient where
  username : String
  password : String
  security_token : String
  domain : String
  sf : Option Session

/-- An outgoing HTTP request as assembled by `get_omniscript_structure`
(`requests.get(full_url, headers=headers, timeout=30)`). -/
structure HttpRequest where
  method : String
  url : String
  headers : List (String × String)
  timeoutSecs : Nat

/-- An HTTP response: status code and raw body text. -/
structure HttpResponse where
  status : Nat
  body : List Char

/-- The endpoint path of the Discovery Framework call:
`/services/data/v62.0/connect/omniscript/{id}?customType={quote_plus("Discovery Framework")}`. -/
def discoveryApiPath (omniscript_id : String) : String :=
  "/services/data/v62.0/connect/omniscript/" ++ omniscript_id
    ++ ("?customType=" ++ quotePlus ("Discovery Framework"))

/-- The fixed Workbench-mimicking header set of `get_omniscript_structure`. -/
def discoveryHeaders (session_id : String) : List (String × String) :=
  [("Authorization", "Bearer " ++ session_id),
   ("Accept", "application/json"),
   ("User-Agent", "Mozilla/5.0 (compatible; SalesforceWorkbench)"),
   ("X-Requested-With", "XMLHttpRequest"),
   ("Content-Type", "application/json")]

/-- The GET request issued by `get_omniscript_structure`. -/
def buildDiscoveryRequest (s : Session) (omniscript_id : String) : HttpRequest :=
  { method := "GET"
    url := "https://" ++ s.sf_instance ++ discoveryApiPath omniscript_id
    headers := discoveryHeaders s.session_id
    timeoutSecs := 30 }

/-- Outcome of `get_omniscript_structure`: parsed document on HTTP 200,
an API error carrying status and body otherwise (the raised
`SalesforceError`, caught and turned into `sys.exit(1)`), a JSON decode
failure (caught by the generic handler), or the `RuntimeError` raised
before any request when not connected. -/
inductive FetchResult where
  | ok (doc : Json)
  | apiError (status : Nat) (body : List Char)
  | unexpectedError
  | notConnected (msg : String)

/-- Response handling of `get_omniscript_structure` (source lines
112-115): return `response.json()` on status 200, raise
`SalesforceError` with the status and body otherwise. -/
def handleDiscoveryResponse (resp : HttpResponse) : FetchResult :=
  if resp.status = 200 then
    match loads resp.body with
    | some j => FetchResult.ok j
    | none => FetchResult.unexpectedError
  else FetchResult.apiError resp.status resp.body

/-- `SalesforceClient.get_omniscript_structure`: guard on the session,
build the fixed request, send it once, handle the response.  The network
is modelled by `send`; the returned list is the requests actually issued. -/
def get_omniscript_structure (c : SalesforceClient) (omniscript_id : String)
    (send : HttpRequest → HttpResponse) : List HttpRequest × FetchResult :=
  match c.sf with
  | none => ([], FetchResult.notConnected notConnectedMsg)
  | some s =>
    ([buildDiscoveryRequest s omniscript_id],
     handleDiscoveryResponse (send (buildDiscoveryRequest s omniscript_id)))

/-- One OmniProcess record as returned by the SOQL query; every field may
be absent (the CLI accesses them with `.get`). -/
structure OmniProcess where
  Id : Option (List Char)
  Name : Option (List Char)
  UniqueName : Option (List Char)
  TypeField : Option (List Char)
  SubType : Option (List Char)
  Language : Option (List Char)
  VersionNumber : Option Int
  DesignerCustomizationType : Option (List Char)
  IsActive : Option Bool
  CreatedDate : Option (List Char)
  LastModifiedDate : Option (List Char)
  CreatedByName : Option (List Char)
  LastModifiedByName : Option (List Char)

/-- Result of `self.sf.query(...)`: the `records` list. -/
structure QueryResult where
  records : List OmniProcess

/-- Outcome of `list_omniscript_processes`. -/
inductive ListResult where
  | ok (records : List OmniProcess)
  | notConnected (msg : String)

/-- The one fixed SOQL query text of `list_omniscript_processes`,
transcribed exactly (triple-quoted string, indentation and trailing
space included). -/
def soql_query : String :=
  "\n            SELECT Id, Name, UniqueName, Type, SubType, Language, \n                   VersionNumber, DesignerCustomizationType, IsActive,\n                   CreatedDate, LastModifiedDate, CreatedBy.Name, LastModifiedBy.Name\n            FROM OmniProcess\n            ORDER BY Name, VersionNumber DESC\n            "

/-- `SalesforceClient.list_omniscript_processes`: guard on the session,
run the fixed query once, return `result['records']` unchanged.  The
query endpoint is modelled by `runQuery`; the returned string list is the
queries actually issued. -/
def list_omniscript_processes (c : SalesforceClient) (runQuery : String → QueryResult) :
    List String × ListResult :=
  match c.sf with
  | none => ([], ListResult.notConnected notConnectedMsg)
  | some _ => ([soql_query], ListResult.ok (runQuery soql_query).records)

/-- The credential dictionary returned by `load_credentials`. -/
structure Credentials where
  username : String
  password : String
  security_token : String
  domain : String

/-- Python truthiness of `os.getenv`'s result: an unset variable (`None`)
and an empty string are both falsy (`if not username`). -/
def isPresent (o : Option String) : Bool :=
  match o with
  | none => false
  | some s => !s.isEmpty

/-- The three required environment keys for an instance, in the order the
source checks them. -/
def requiredKeys (inst : String) : List String :=
  [inst ++ "_SF_USERNAME", inst ++ "_SF_PASSWORD", inst ++ "_SF_TOKEN"]

/-- `load_credentials`: read the four instance-prefixed variables from the
environment (`env`), default the domain to `login` when unset, collect the
names of all missing required variables, and either fail (the source
prints them and calls `sys.exit(1)`) or return the credential record. -/
def load_credentials (env : String → Option String) (inst : String) :
    Except (List String) Credentials :=
  let username_key := inst ++ "_SF_USERNAME"
  let password_key := inst ++ "_SF_PASSWORD"
  let token_key := inst ++ "_SF_TOKEN"
  let domain_key := inst ++ "_SF_DOMAIN"
  let username := env username_key
  let password := env password_key
  let token := env token_key
  let domain := (env domain_key).getD ("login")
  let missing_creds :=
    (if isPresent username then [] else [username_key])
      ++ (if isPresent password then [] else [password_key])
      ++ (if isPresent token then [] else [token_key])
  if missing_creds = [] then
    Except.ok
      { username := username.getD ("")
        password := password.getD ("")
        security_token := token.getD ("")
        domain := domain }
  else Except.error missing_creds

/-- Outcome of the `simple_salesforce.Salesforce(...)` constructor call
inside `connect`: a session, an authentication failure
(`SalesforceAuthenticationFailed`), or any other connection exception. -/
inductive ConnectOutcome where
  | success (s : Session)
  | authFailed (msg : String)
  | connFailed (msg : String)

/-- `SalesforceClient.connect`: on success the session is stored on the
client; both exception handlers print a message and call `sys.exit(1)`. -/
def connectResult (c : SalesforceClient) (outcome : ConnectOutcome) :
    Except Nat SalesforceClient :=
  match outcome with
  | ConnectOutcome.success s => Except.ok { c with sf := some s }
  | ConnectOutcome.authFailed _ => Except.error 1
  | ConnectOutcome.connFailed _ => Except.error 1

/-- `SalesforceClient(**credentials)`: a fresh, not-yet-connected client. -/
def mkClient (creds : Credentials) : SalesforceClient :=
  { username := creds.username
    password := creds.password
    security_token := creds.security_token
    domain := creds.domain
    sf := none }

/-- The credential-loading and connecting prefix shared by the CLI
commands: `load_credentials` then `SalesforceClient(**credentials)` then
`client.connect()`.  The first component lists the credential sets passed
to the authenticator, i.e. the network authentication attempts made. -/
def cliConnect (env : String → Option String) (inst : String)
    (auth : Credentials → ConnectOutcome) :
    List Credentials × Except Nat SalesforceClient :=
  match load_credentials env inst with
  | Except.error _ => ([], Except.error 1)
  | Except.ok creds => ([creds], connectResult (mkClient creds) (auth creds))

/-- Exit code produced by the error handlers around
`get_omniscript_structure`: every non-`ok` outcome ends the process
(`sys.exit(1)` for the caught errors; the uncaught not-connected
`RuntimeError` also terminates the interpreter with a nonzero status). -/
def fetchExitCode (r : FetchResult) : Option Nat :=
  match r with
  | FetchResult.ok _ => none
  | FetchResult.apiError _ _ => some 1
  | FetchResult.unexpectedError => some 1
  | FetchResult.notConnected _ => some 1

/-- Exit code of the `load_credentials` failure path. -/
def configExitCode (r : Except (List String) Credentials) : Option Nat :=
  match r with
  | Except.ok _ => none
  | Except.error _ => some 1

/-- Exit code of the `connect` failure paths. -/
def connectExitCode (r : Except Nat SalesforceClient) : Option Nat :=
  match r with
  | Except.ok _ => none
  | Except.error code => some code

/-- Truthiness of `p.get('IsActive', False)`: absent (or JSON null,
which the model folds into absence) counts as inactive. -/
def isActiveTruthy (p : OmniProcess) : Bool := (p.IsActive).getD false

/-- The `--active-only` filter of the `list` command:
`[p for p in processes if p.get('IsActive', False)]`. -/
def filterActiveOnly (ps : List OmniProcess) : List OmniProcess :=
  ps.filter isActiveTruthy

/-- The `"..."` suffix used by the table truncation. -/
def dots : List Char := ['.', '.', '.']

/-- Name column truncation of `display_processes_table`:
`name[:20] + "..."` when `len(name) > 23`. -/
def truncName (s : List Char) : List Char :=
  if 23 < s.length then s.take 20 ++ dots else s

/-- Unique-name column truncation: `unique_name[:25] + "..."` when
`len(unique_name) > 28`. -/
def truncUnique (s : List Char) : List Char :=
  if 28 < s.length then s.take 25 ++ dots else s

/-- Id column truncation: `str(process.get('Id', 'N/A'))[:18]`, always. -/
def truncId (s : List Char) : List Char := s.take 18

/-- Outcome of one attempt in the `debug` command: a response with a
status code, or a raised exception. -/
inductive AttemptOutcome where
  | resp (status : Nat)
  | exn

/-- Success test of one debug attempt: `response.status_code == 200`;
a raised exception is never a success. -/
def isSuccessAttempt (o : AttemptOutcome) : Bool :=
  match o with
  | AttemptOutcome.resp status => status = 200
  | AttemptOutcome.exn => false

/-- The sequential attempt loop shared by `debug_api_call` and
`try_raw_requests`: try each attempt in order, return on the first 200
response, log and continue past failures and exceptions.  The first
component is the list of attempts actually made, the second the winning
attempt, if any. -/
def tryAttempts {α : Type} (respond : α → AttemptOutcome) : List α → List α × Option α
  | [] => ([], none)
  | a :: rest =>
    if isSuccessAttempt (respond a) then ([a], some a)
    else ((a :: (tryAttempts respond rest).1), (tryAttempts respond rest).2)

/-- The four URL variants tried by `debug_api_call`, in order. -/
def debugApproaches (omniscript_id : String) : List String :=
  ["/services/data/v62.0/connect/omniscript/" ++ omniscript_id
     ++ "?customType=Discovery+Framework",
   "/services/data/v62.0/connect/omniscript/" ++ omniscript_id
     ++ "?customType=Discovery%20Framework",
   "/services/data/v62.0/connect/omniscript/" ++ omniscript_id,
   "/services/data/v59.0/connect/omniscript/" ++ omniscript_id
     ++ "?customType=Discovery+Framework"]

/-- The three header variants tried by `try_raw_requests`, in order. -/
def rawHeaderVariations (session_id : String) : List (List (String × String)) :=
  [[("Authorization", "Bearer " ++ session_id),
    ("Accept", "application/json"),
    ("User-Agent", "Mozilla/5.0 (compatible; SalesforceWorkbench)"),
    ("X-Requested-With", "XMLHttpRequest"),
    ("Content-Type", "application/json")],
   [("Authorization", "Bearer " ++ session_id),
    ("Accept", "application/json"),
    ("User-Agent", "Python/simple-salesforce")],
   [("Authorization", "Bearer " ++ session_id),
    ("Accept", "application/json")]]

/-- C1: for every HTTP response to the Discovery Framework GET,
`get_omniscript_structure` returns the parsed JSON body exactly when the
response status is 200, and for any other status it fails with an
`ApiError` carrying the original status code and response body; it never
returns a value on a non-200 status. -/
theorem claim_C1 (c : SalesforceClient) (s : Session) (omniscript_id : String)
    (send : HttpRequest → HttpResponse) (hc : c.sf = some s) :
    (∀ j, (send (buildDiscoveryRequest s omniscript_id)).status = 200 →
      loads (send (buildDiscoveryRequest s omniscript_id)).body = some j →
      get_omniscript_structure c omniscript_id send
        = ([buildDiscoveryRequest s omniscript_id], FetchResult.ok j))
    ∧ ((send (buildDiscoveryRequest s omniscript_id)).status ≠ 200 →
      get_omniscript_structure c omniscript_id send
        = ([buildDiscoveryRequest s omniscript_id],
           FetchResult.apiError (send (buildDiscoveryRequest s omniscript_id)).status
             (send (buildDiscoveryRequest s omniscript_id)).body)
      ∧ ∀ j, (get_omniscript_structure c omniscript_id send).2 ≠ FetchResult.ok j) := by
  constructor
  · intro j h200 hloads
    simp only [get_omniscript_structure, hc]
    rw [handleDiscoveryResponse, if_pos h200, hloads]
  · intro hne
    have heq : get_omniscript_structure c omniscript_id send
        = ([buildDiscoveryRequest s omniscript_id],
           FetchResult.apiError (send (buildDiscoveryRequest s omniscript_id)).status
             (send (buildDiscoveryRequest s omniscript_id)).body) := by
      simp only [get_omniscript_structure, hc]
      rw [handleDiscoveryResponse, if_neg hne]
    refine ⟨heq, ?_⟩
    intro j
    rw [heq]
    simp

def cw_session : Session :=
  { sf_instance := "example.my.salesforce.com", session_id := "SESSIONTOKEN" }

def cw_client : SalesforceClient :=
  { username := "user@example.com", password := "pw", security_token := "tok"
    domain := "login", sf := some cw_session }

def cw_send : HttpRequest → HttpResponse := fun _ => { status := 200, body := ['{', '}'] }

theorem claim_C1_witness :
    get_omniscript_structure cw_client ("a0X000000000001") cw_send
      = ([buildDiscoveryRequest cw_session ("a0X000000000001")], FetchResult.ok (Json.obj [])) :=
  (claim_C1 cw_client cw_session ("a0X000000000001") cw_send rfl).1 (Json.obj []) rfl rfl

/-- C2: `list_omniscript_processes` issues one fixed SOQL query whose
order clause is by Name ascending then VersionNumber descending (the
literal `ORDER BY Name, VersionNumber DESC` clause), and returns the
server's record sequence unchanged. -/
theorem claim_C2 (c : SalesforceClient) (s : Session) (runQuery : String → QueryResult)
    (hc : c.sf = some s) :
    list_omniscript_processes c runQuery
      = ([soql_query], ListResult.ok (runQuery soql_query).records)
    ∧ ("ORDER BY Name, VersionNumber DESC").data <:+: soql_query.data := by
  constructor
  · simp only [list_omniscript_processes, hc]
  · decide

def cw_runQuery : String → QueryResult := fun _ => { records := [] }

theorem claim_C2_witness :
    list_omniscript_processes cw_client cw_runQuery
      = ([soql_query], ListResult.ok (cw_runQuery soql_query).records) :=
  (claim_C2 cw_client cw_session cw_runQuery rfl).1

/-- C3: filtering with the active-only option yields exactly the
subsequence of records whose IsActive field equals true, preserving the
relative order of the retained records (a sublist of the input). -/
theorem claim_C3 (ps : List OmniProcess) :
    List.Sublist (filterActiveOnly ps) ps
    ∧ ∀ p, p ∈ filterActiveOnly ps ↔ p ∈ ps ∧ p.IsActive = some true := by
  constructor
  · exact List.filter_sublist ps
  · intro p
    have hiff : isActiveTruthy p = true ↔ p.IsActive = some true := by
      rw [isActiveTruthy]
      cases h : p.IsActive with
      | none => simp
      | some b => cases b <;> simp
    rw [filterActiveOnly, List.mem_filter, hiff]

/-- C4: with any required credential field missing (unset or empty, per
Python truthiness), `load_credentials` fails naming exactly the missing
keys and the command makes no authentication attempt; with all three
present it succeeds, the domain defaulting to `login` when unset. -/
theorem claim_C4 (env : String → Option String) (inst : String)
    (auth : Credentials → ConnectOutcome) :
    ((∃ k ∈ requiredKeys inst, isPresent (env k) = false) →
      ∃ ms, load_credentials env inst = Except.error ms
        ∧ (∀ k ∈ requiredKeys inst, isPresent (env k) = false → k ∈ ms)
        ∧ (∀ k ∈ ms, k ∈ requiredKeys inst ∧ isPresent (env k) = false)
        ∧ cliConnect env inst auth = ([], Except.error 1))
    ∧ ((∀ k ∈ requiredKeys inst, isPresent (env k) = true) →
      ∃ creds, load_credentials env inst = Except.ok creds
        ∧ creds.username = (env (inst ++ "_SF_USERNAME")).getD ""
        ∧ creds.password = (env (inst ++ "_SF_PASSWORD")).getD ""
        ∧ creds.security_token = (env (inst ++ "_SF_TOKEN")).getD ""
        ∧ creds.domain = (env (inst ++ "_SF_DOMAIN")).getD "login"
        ∧ (env (inst ++ "_SF_DOMAIN") = none → creds.domain = "login")) := by
  have hkeys : ∀ k, k ∈ requiredKeys inst ↔
      k = inst ++ "_SF_USERNAME" ∨ k = inst ++ "_SF_PASSWORD" ∨ k = inst ++ "_SF_TOKEN" := by
    intro k
    simp [requiredKeys]
  by_cases hu : isPresent (env (inst ++ "_SF_USERNAME")) = true
  · by_cases hp : isPresent (env (inst ++ "_SF_PASSWORD")) = true
    · by_cases ht : isPresent (env (inst ++ "_SF_TOKEN")) = true
      · constructor
        · intro hmiss
          exfalso
          obtain ⟨k, hk, hkf⟩ := hmiss
          rcases (hkeys k).mp hk with rfl | rfl | rfl <;> simp_all
        · intro _
          have heq : load_credentials env inst = Except.ok
              { username := (env (inst ++ "_SF_USERNAME")).getD ""
                password := (env (inst ++ "_SF_PASSWORD")).getD ""
                security_token := (env (inst ++ "_SF_TOKEN")).getD ""
                domain := (env (inst ++ "_SF_DOMAIN")).getD "login" } := by
            rw [load_credentials]
            simp [hu, hp, ht]
          refine ⟨_, heq, rfl, rfl, rfl, rfl, fun hd => by simp [hd]⟩
      · constructor
        · intro _
          refine ⟨[inst ++ "_SF_TOKEN"], ?_, ?_, ?_, ?_⟩
          · rw [load_credentials]
            simp only [hu, hp, ht, if_true]
            simp [Bool.not_eq_true] at ht
            simp [ht]
          · intro k hk hkf
            rcases (hkeys k).mp hk with rfl | rfl | rfl <;> simp_all
          · intro k hk
            simp only [List.mem_cons, List.not_mem_nil, or_false] at hk
            subst hk
            refine ⟨(hkeys _).mpr (Or.inr (Or.inr rfl)), ?_⟩
            simp_all
          · rw [cliConnect, load_credentials]
            simp only [hu, hp, ht, if_true]
            simp [Bool.not_eq_true] at ht
            simp [ht]
        · intro hall
          exfalso
          have := hall (inst ++ "_SF_TOKEN") ((hkeys _).mpr (Or.inr (Or.inr rfl)))
          simp_all
    · constructor
      · intro _
        have hperr : ∃ tail, load_credentials env inst
            = Except.error ((inst ++ "_SF_PASSWORD") :: tail)
            ∧ (∀ k ∈ (inst ++ "_SF_PASSWORD") :: tail,
                k ∈ requiredKeys inst ∧ isPresent (env k) = false)
            ∧ (isPresent (env (inst ++ "_SF_TOKEN")) = false → inst ++ "_SF_TOKEN" ∈ (inst ++ "_SF_PASSWORD") :: tail) := by
          rw [load_credentials]
          simp only [hu, if_true]
          simp only [Bool.not_eq_true] at hp
          simp only [hp, if_false]
          by_cases ht : isPresent (env (inst ++ "_SF_TOKEN")) = true
          · refine ⟨[], ?_, ?_, ?_⟩
            · simp [ht]
            · intro k hk
              simp only [List.mem_cons, List.not_mem_nil, or_false] at hk
              subst hk
              exact ⟨(hkeys _).mpr (Or.inr (Or.inl rfl)), hp⟩
            · intro hc
              simp_all
          · simp only [Bool.not_eq_true] at ht
            refine ⟨[inst ++ "_SF_TOKEN"], ?_, ?_, ?_⟩
            · simp [ht]
            · intro k hk
              simp only [List.mem_cons, List.not_mem_nil, or_false] at hk
              rcases hk with rfl | rfl
              · exact ⟨(hkeys _).mpr (Or.inr (Or.inl rfl)), hp⟩
              · exact ⟨(hkeys _).mpr (Or.inr (Or.inr rfl)), ht⟩
            · intro _
              simp
        obtain ⟨tail, herr, hsound, htok⟩ := hperr
        refine ⟨_, herr, ?_, hsound, ?_⟩
        · intro k hk hkf
          rcases (hkeys k).mp hk with rfl | rfl | rfl
          · simp_all
          · simp
          · exact htok hkf
        · rw [cliConnect, herr]
      · intro hall
        exfalso
        have := hall (inst ++ "_SF_PASSWORD") ((hkeys _).mpr (Or.inr (Or.inl rfl)))
        simp_all
  · constructor
    · intro _
      simp only [Bool.not_eq_true] at hu
      have huerr : ∃ tail, load_credentials env inst
          = Except.error ((inst ++ "_SF_USERNAME") :: tail)
          ∧ (∀ k ∈ (inst ++ "_SF_USERNAME") :: tail,
              k ∈ requiredKeys inst ∧ isPresent (env k) = false)
          ∧ (isPresent (env (inst ++ "_SF_PASSWORD")) = false → inst ++ "_SF_PASSWORD" ∈ (inst ++ "_SF_USERNAME") :: tail)
          ∧ (isPresent (env (inst ++ "_SF_TOKEN")) = false → inst ++ "_SF_TOKEN" ∈ (inst ++ "_SF_USERNAME") :: tail) := by
        rw [load_credentials]
        simp only [hu, if_false]
        by_cases hp : isPresent (env (inst ++ "_SF_PASSWORD")) = true
        · by_cases ht : isPresent (env (inst ++ "_SF_TOKEN")) = true
          · refine ⟨[], ?_, ?_, ?_, ?_⟩
            · simp [hp, ht]
            · intro k hk
              simp only [List.mem_cons, List.not_mem_nil, or_false] at hk
              subst hk
              exact ⟨(hkeys _).mpr (Or.inl rfl), hu⟩
            · intro hc
              simp_all
            · intro hc
              simp_all
          · simp only [Bool.not_eq_true] at ht
            refine ⟨[inst ++ "_SF_TOKEN"], ?_, ?_, ?_, ?_⟩
            · simp [hp, ht]
            · intro k hk
              simp only [List.mem_cons, List.not_mem_nil, or_false] at hk
              rcases hk with rfl | rfl
              · exact ⟨(hkeys _).mpr (Or.inl rfl), hu⟩
              · exact ⟨(hkeys _).mpr (Or.inr (Or.inr rfl)), ht⟩
            · intro hc
              simp_all
            · intro _
              simp
        · simp only [Bool.not_eq_true] at hp
          by_cases ht : isPresent (env (inst ++ "_SF_TOKEN")) = true
          · refine ⟨[inst ++ "_SF_PASSWORD"], ?_, ?_, ?_, ?_⟩
            · simp [hp, ht]
            · intro k hk
              simp only [List.mem_cons, List.not_mem_nil, or_false] at hk
              rcases hk with rfl | rfl
              · exact ⟨(hkeys _).mpr (Or.inl rfl), hu⟩
              · exact ⟨(hkeys _).mpr (Or.inr (Or.inl rfl)), hp⟩
            · intro _
              simp
            · intro hc
              simp_all
          · simp only [Bool.not_eq_true] at ht
            refine ⟨[inst ++ "_SF_PASSWORD", inst ++ "_SF_TOKEN"], ?_, ?_, ?_, ?_⟩
            · simp [hp, ht]
            · intro k hk
              simp only [List.mem_cons, List.not_mem_nil, or_false] at hk
              rcases hk with rfl | rfl | rfl
              · exact ⟨(hkeys _).mpr (Or.inl rfl), hu⟩
              · exact ⟨(hkeys _).mpr (Or.inr (Or.inl rfl)), hp⟩
              · exact ⟨(hkeys _).mpr (Or.inr (Or.inr rfl)), ht⟩
            · intro _
              simp
            · intro _
              simp
      obtain ⟨tail, herr, hsound, hpw, htok⟩ := huerr
      refine ⟨_, herr, ?_, hsound, ?_⟩
      · intro k hk hkf
        rcases (hkeys k).mp hk with rfl | rfl | rfl
        · simp
        · exact hpw hkf
        · exact htok hkf
      · rw [cliConnect, herr]
    · intro hall
      exfalso
      have := hall (inst ++ "_SF_USERNAME") ((hkeys _).mpr (Or.inl rfl))
      simp_all

def env_missing : String → Option String := fun _ => none

def env_full : String → Option String := fun k =>
  if k = "DEFAULT_SF_USERNAME" then some ("user@example.com")
  else if k = "DEFAULT_SF_PASSWORD" then some ("pw")
  else if k = "DEFAULT_SF_TOKEN" then some ("tok")
  else none

def cw_auth : Credentials → ConnectOutcome := fun _ => ConnectOutcome.authFailed ("bad")

theorem claim_C4_witness :
    (∃ ms, load_credentials env_missing ("DEFAULT") = Except.error ms
      ∧ (∀ k ∈ requiredKeys ("DEFAULT"), isPresent (env_missing k) = false → k ∈ ms)
      ∧ (∀ k ∈ ms, k ∈ requiredKeys ("DEFAULT") ∧ isPresent (env_missing k) = false)
      ∧ cliConnect env_missing ("DEFAULT") cw_auth = ([], Except.error 1))
    ∧ (∃ creds, load_credentials env_full ("DEFAULT") = Except.ok creds
      ∧ creds.username = (env_full ("DEFAULT" ++ "_SF_USERNAME")).getD ""
      ∧ creds.password = (env_full ("DEFAULT" ++ "_SF_PASSWORD")).getD ""
      ∧ creds.security_token = (env_full ("DEFAULT" ++ "_SF_TOKEN")).getD ""
      ∧ creds.domain = (env_full ("DEFAULT" ++ "_SF_DOMAIN")).getD "login"
      ∧ (env_full ("DEFAULT" ++ "_SF_DOMAIN") = none → creds.domain = "login")) :=
  ⟨(claim_C4 env_missing ("DEFAULT") cw_auth).1
      ⟨"DEFAULT" ++ "_SF_USERNAME", by decide, rfl⟩,
   (claim_C4 env_full ("DEFAULT") cw_auth).2 (by decide)⟩

def cx_session : Session :=
  { sf_instance := "example.my.salesforce.com", session_id := "SESSIONTOKEN" }

/-- C6 counterexample: at a concrete session and id, the header set of the
request built by `get_omniscript_structure` is not the four-header set the
claim describes (bearer token, JSON accept, spoofed user-agent, XHR
marker): the code also sends a `Content-Type: application/json` header. -/
theorem claim_C6_counterexample :
    (buildDiscoveryRequest cx_session ("a0X000000000001")).headers
      ≠ [("Authorization", "Bearer " ++ cx_session.session_id),
         ("Accept", "application/json"),
         ("User-Agent", "Mozilla/5.0 (compatible; SalesforceWorkbench)"),
         ("X-Requested-With", "XMLHttpRequest")] := by
  decide

/-- C6 (amended): for every id, `get_omniscript_structure` issues a GET to
the fixed endpoint path parameterized by that id with the literal
`customType=Discovery+Framework` query parameter, and the request carries
the fixed header set consisting of the bearer token, a JSON accept header,
a spoofed user-agent, an XHR marker header, and a JSON content-type
header. -/
theorem claim_C6_amended (s : Session) (omniscript_id : String) :
    buildDiscoveryRequest s omniscript_id
      = { method := "GET"
          url := "https://" ++ s.sf_instance
            ++ ("/services/data/v62.0/connect/omniscript/" ++ omniscript_id
              ++ ("?customType=" ++ "Discovery+Framework"))
          headers := [("Authorization", "Bearer " ++ s.session_id),
            ("Accept", "application/json"),
            ("User-Agent", "Mozilla/5.0 (compatible; SalesforceWorkbench)"),
            ("X-Requested-With", "XMLHttpRequest"),
            ("Content-Type", "application/json")]
          timeoutSecs := 30 } := by
  rw [buildDiscoveryRequest, discoveryApiPath, discoveryHeaders]
  have hq : quotePlus ("Discovery Framework") = "Discovery+Framework" := by decide
  rw [hq]

/-- C7: the debug exploration behaves as an ordered list of attempts tried
strictly sequentially: the attempts made are exactly the failing prefix
plus the first 200-response attempt if one exists, the result is the first
attempt returning status 200, a success stops the sequence, and an
exception in one attempt does not prevent the next. -/
theorem claim_C7 {α : Type} (respond : α → AttemptOutcome) :
    (∀ l : List α, tryAttempts respond l
        = (l.takeWhile (fun a => !isSuccessAttempt (respond a))
            ++ (l.dropWhile (fun a => !isSuccessAttempt (respond a))).take 1,
           l.find? (fun a => isSuccessAttempt (respond a))))
    ∧ (∀ (a : α) (l : List α), isSuccessAttempt (respond a) = true →
        tryAttempts respond (a :: l) = ([a], some a))
    ∧ (∀ (a : α) (l : List α), respond a = AttemptOutcome.exn →
        tryAttempts respond (a :: l)
          = (a :: (tryAttempts respond l).1, (tryAttempts respond l).2)) := by
  refine ⟨?_, ?_, ?_⟩
  · intro l
    induction l with
    | nil => rfl
    | cons a t ih =>
      by_cases ha : isSuccessAttempt (respond a) = true
      · rw [tryAttempts, if_pos ha]
        rw [List.takeWhile_cons, List.dropWhile_cons]
        simp [ha, List.find?_cons]
      · rw [tryAttempts, if_neg ha]
        rw [List.takeWhile_cons, List.dropWhile_cons]
        simp only [Bool.not_eq_true] at ha
        simp [ha, List.find?_cons, ih]
  · intro a l ha
    rw [tryAttempts, if_pos ha]
  · intro a l ha
    rw [tryAttempts, if_neg (by rw [ha]; decide)]

def cw_respond : Nat → AttemptOutcome :=
  fun n => if n = 1 then AttemptOutcome.resp 200 else AttemptOutcome.exn

theorem claim_C7_witness :
    tryAttempts cw_respond (0 :: [1, 2])
      = (0 :: (tryAttempts cw_respond [1, 2]).1, (tryAttempts cw_respond [1, 2]).2)
    ∧ tryAttempts cw_respond (1 :: [2]) = ([1], some 1) :=
  ⟨(claim_C7 cw_respond).2.2 0 [1, 2] rfl, (claim_C7 cw_respond).2.1 1 [2] rfl⟩

/-- C8: every error kind is terminal for the invoked command:
authentication failures and connection failures in `connect`, non-200 API
responses in `get_omniscript_structure`, and missing credentials in
`load_credentials` all end the process with exit status 1, which is
nonzero; no retry path exists (each function returns the terminal result
directly). -/
theorem claim_C8 :
    (∀ (c : SalesforceClient) (msg : String),
      connectExitCode (connectResult c (ConnectOutcome.authFailed msg)) = some 1)
    ∧ (∀ (c : SalesforceClient) (msg : String),
      connectExitCode (connectResult c (ConnectOutcome.connFailed msg)) = some 1)
    ∧ (∀ resp : HttpResponse, resp.status ≠ 200 →
      fetchExitCode (handleDiscoveryResponse resp) = some 1)
    ∧ (∀ (env : String → Option String) (inst : String) (ms : List String),
      load_credentials env inst = Except.error ms →
      configExitCode (load_credentials env inst) = some 1)
    ∧ (1 : Nat) ≠ 0 := by
  refine ⟨fun c msg => rfl, fun c msg => rfl, ?_, ?_, by decide⟩
  · intro resp hne
    rw [handleDiscoveryResponse, if_neg hne]
    rfl
  · intro env inst ms herr
    rw [herr]
    rfl

def cw_resp404 : HttpResponse := { status := 404, body := ['e', 'r', 'r'] }

theorem claim_C8_witness :
    fetchExitCode (handleDiscoveryResponse cw_resp404) = some 1
    ∧ configExitCode (load_credentials env_missing ("DEFAULT")) = some 1 :=
  ⟨claim_C8.2.2.1 cw_resp404 (by decide),
   claim_C8.2.2.2.1 env_missing ("DEFAULT")
     ["DEFAULT" ++ "_SF_USERNAME", "DEFAULT" ++ "_SF_PASSWORD", "DEFAULT" ++ "_SF_TOKEN"] rfl⟩

/-- C9: in the table rendering, a Name longer than 23 characters is
replaced by its first 20 characters followed by `...` (total 23), a
UniqueName longer than 28 characters by its first 25 characters followed
by `...` (total 28), the Id is always truncated to its first 18
characters, shorter values are displayed unmodified, and every displayed
value is a prefix of the original possibly followed by `...`. -/
theorem claim_C9 (s : List Char) :
    (23 < s.length → truncName s = s.take 20 ++ dots ∧ (truncName s).length = 23)
    ∧ (s.length ≤ 23 → truncName s = s)
    ∧ (28 < s.length → truncUnique s = s.take 25 ++ dots ∧ (truncUnique s).length = 28)
    ∧ (s.length ≤ 28 → truncUnique s = s)
    ∧ truncId s = s.take 18
    ∧ truncId s <+: s
    ∧ (truncName s = s ∨ ∃ p, p <+: s ∧ truncName s = p ++ dots)
    ∧ (truncUnique s = s ∨ ∃ p, p <+: s ∧ truncUnique s = p ++ dots) := by
  have hpre : ∀ n : Nat, s.take n <+: s := fun n => ⟨s.drop n, List.take_append_drop n s⟩
  refine ⟨?_, ?_, ?_, ?_, rfl, hpre 18, ?_, ?_⟩
  · intro h
    rw [truncName, if_pos h]
    refine ⟨rfl, ?_⟩
    rw [List.length_append, List.length_take]
    have hd : dots.length = 3 := rfl
    omega
  · intro h
    rw [truncName, if_neg (by omega)]
  · intro h
    rw [truncUnique, if_pos h]
    refine ⟨rfl, ?_⟩
    rw [List.length_append, List.length_take]
    have hd : dots.length = 3 := rfl
    omega
  · intro h
    rw [truncUnique, if_neg (by omega)]
  · by_cases h : 23 < s.length
    · exact Or.inr ⟨s.take 20, hpre 20, by rw [truncName, if_pos h]⟩
    · exact Or.inl (by rw [truncName, if_neg h])
  · by_cases h : 28 < s.length
    · exact Or.inr ⟨s.take 25, hpre 25, by rw [truncUnique, if_pos h]⟩
    · exact Or.inl (by rw [truncUnique, if_neg h])

theorem claim_C9_witness :
    truncName (List.replicate 24 'a') = (List.replicate 24 'a').take 20 ++ dots
    ∧ (truncName (List.replicate 24 'a')).length = 23
    ∧ truncName (List.replicate 23 'a') = List.replicate 23 'a'
    ∧ truncUnique (List.replicate 29 'a') = (List.replicate 29 'a').take 25 ++ dots
    ∧ (truncUnique (List.replicate 29 'a')).length = 28
    ∧ truncUnique (List.replicate 28 'a') = List.replicate 28 'a' :=
  ⟨((claim_C9 (List.replicate 24 'a')).1 (by decide)).1,
   ((claim_C9 (List.replicate 24 'a')).1 (by decide)).2,
   (claim_C9 (List.replicate 23 'a')).2.1 (by decide),
   ((claim_C9 (List.replicate 29 'a')).2.2.1 (by decide)).1,
   ((claim_C9 (List.replicate 29 'a')).2.2.1 (by decide)).2,
   (claim_C9 (List.replicate 28 'a')).2.2.2.1 (by decide)⟩

/-- C10: for every client without an established session, both
`get_omniscript_structure` and `list_omniscript_processes` fail
immediately with the not-connected `RuntimeError` and issue no request at
all. -/
theorem claim_C10 (c : SalesforceClient) (hc : c.sf = none) :
    (∀ (omniscript_id : String) (send : HttpRequest → HttpResponse),
      get_omniscript_structure c omniscript_id send
        = ([], FetchResult.notConnected notConnectedMsg))
    ∧ (∀ runQuery : String → QueryResult,
      list_omniscript_processes c runQuery = ([], ListResult.notConnected notConnectedMsg)) := by
  constructor
  · intro oid send
    simp [get_omniscript_structure, hc]
  · intro q
    simp [list_omniscript_processes, hc]

def dc_client : SalesforceClient :=
  { username := "user@example.com", password := "pw", security_token := "tok"
    domain := "login", sf := none }

theorem claim_C10_witness :
    get_omniscript_structure dc_client ("a0X000000000001") cw_send
      = ([], FetchResult.notConnected notConnectedMsg)
    ∧ list_omniscript_processes dc_client cw_runQuery
      = ([], ListResult.notConnected notConnectedMsg) :=
  ⟨(claim_C10 dc_client rfl).1 ("a0X000000000001") cw_send,
   (claim_C10 dc_client rfl).2 cw_runQuery⟩
